import Mathlib

/-!
Verification of the conversational-client core of the `llm-prompts`
repository against its natural-language specification.

The Python sources are shallowly embedded:

* `src/openai_chat_client.py` — `OpenAIClient` (conversation history,
  system prompt, SSE stream decoding, `stream_chat`);
* `src/prompt_service.py` — `PromptService._replace_template_variables`;
* `src/zhipuai_chat_client.py` — `ZhipuAiChatClient.chat_completion`
  keyword-argument construction;
* `src/notebooks/setup.py` — `ServiceFactory._ensure_service` adapter
  selection.

Python strings are embedded as `List Char` where character-level work
happens (stream payloads, templates) and as `String` for message fields.
Python dict/list values decoded from JSON are embedded as an inductive
`Json` type together with a JSON parser mirroring `json.loads`.
Reference aliasing (shallow copies of `list[dict]`) is embedded with an
explicit store in the `Heap` section.
-/

/-! ## Python string primitives -/

/-- Python `str.strip()` (no argument): remove whitespace from both ends. -/
def pyStrip (s : List Char) : List Char :=
  ((s.dropWhile Char.isWhitespace).reverse.dropWhile Char.isWhitespace).reverse

/-- Python `str.rstrip('/')`: remove trailing `'/'` characters
(`base_url.rstrip('/')` in `OpenAIClient.__init__`). -/
def pyRstripSlash (s : String) : String :=
  String.mk ((s.data.reverse.dropWhile (fun c => c = '/')).reverse)

/-- Python truthiness of an `Optional[str]`: `None` and `""` are falsy. -/
def truthyOptStr : Option String → Bool
  | none => false
  | some s => !s.isEmpty

/-! ## Conversation model (`src/openai_chat_client.py`)

A history entry is the dict `{"role": ..., "content": ...}`. -/

/-- One conversation message `{"role": role, "content": content}`. -/
structure Message where
  role : String
  content : String
deriving DecidableEq, Repr

/-- The mutable state of an `OpenAIClient` instance: the fields assigned in
`OpenAIClient.__init__` that later methods read or write. -/
structure OpenAIClientState where
  api_key : String
  base_url : String
  system_prompt : Option String
  conversation_history : List Message
deriving DecidableEq, Repr

/-- Method `OpenAIClient.__init__(api_key, base_url, system_prompt)`: strips the
trailing slash of `base_url`, stores the system prompt, and seeds the
history with a system message only when `system_prompt` is truthy
(`if self.system_prompt:`). -/
def OpenAIClient.init (api_key : String) (base_url : String)
    (system_prompt : Option String) : OpenAIClientState :=
  { api_key := api_key
    base_url := pyRstripSlash base_url
    system_prompt := system_prompt
    conversation_history :=
      if truthyOptStr system_prompt then
        [{ role := "system", content := system_prompt.getD "" }]
      else [] }

/-- Method `OpenAIClient.add_message(role, content)`:
`self.conversation_history.append({"role": role, "content": content})`. -/
def addMessage (st : OpenAIClientState) (role content : String) :
    OpenAIClientState :=
  { st with conversation_history :=
      st.conversation_history ++ [{ role := role, content := content }] }

/-- A sequence of `add_message` calls, in call order. -/
def addMessages (st : OpenAIClientState) (ms : List (String × String)) :
    OpenAIClientState :=
  ms.foldl (fun s rc => addMessage s rc.1 rc.2) st

/-- Method `OpenAIClient.set_system_prompt(system_prompt)`: store the prompt; if the
history is nonempty and its first message has role `"system"`, overwrite that
message's content in place, otherwise insert a system message at index 0. -/
def setSystemPrompt (st : OpenAIClientState) (p : String) : OpenAIClientState :=
  let st1 := { st with system_prompt := some p }
  match st1.conversation_history with
  | [] => { st1 with conversation_history := [{ role := "system", content := p }] }
  | m :: rest =>
    if m.role = "system" then
      { st1 with conversation_history := { role := m.role, content := p } :: rest }
    else
      { st1 with conversation_history :=
          { role := "system", content := p } :: m :: rest }

/-- Method `OpenAIClient.clear_history(keep_system_prompt)`: when
`keep_system_prompt and self.system_prompt` is truthy the history becomes the
single system message rebuilt from the stored `system_prompt` attribute,
otherwise it becomes empty. -/
def clearHistory (st : OpenAIClientState) (keep_system_prompt : Bool) :
    OpenAIClientState :=
  if keep_system_prompt && truthyOptStr st.system_prompt then
    { st with conversation_history :=
        [{ role := "system", content := st.system_prompt.getD "" }] }
  else
    { st with conversation_history := [] }

/-- Method `OpenAIClient.get_history()`: `return self.conversation_history.copy()`.
At the level of message values the copy has the same contents; the aliasing
behaviour of the shallow copy is modelled separately in the `Heap` section. -/
def getHistory (st : OpenAIClientState) : List Message :=
  st.conversation_history

/-- The spec's history invariant: at most one message has role `"system"`,
and if present it occupies index 0. -/
def sysInvariant (h : List Message) : Prop :=
  (h.filter (fun m => m.role = "system")).length ≤ 1 ∧
    ∀ m ∈ h.drop 1, m.role ≠ "system"

instance (h : List Message) : Decidable (sysInvariant h) := by
  unfold sysInvariant; infer_instance

/-! ## JSON values and `json.loads`

`Json` embeds the Python values that `json.loads` can produce. Numbers keep
their raw lexeme (the code never does arithmetic on them); `NaN`,
`Infinity` and `-Infinity` are accepted like CPython's default parser and
kept as lexemes. -/

/-- A decoded JSON value, as produced by `json.loads`. -/
inductive Json where
  | null
  | bool (b : Bool)
  | num (lexeme : List Char)
  | str (s : List Char)
  | arr (elems : List Json)
  | obj (fields : List (List Char × Json))

/-- Truthiness of a numeric lexeme: zero literals (`0`, `-0.0`, `0e5`, ...)
are falsy; everything else, including `NaN` and the infinities, is truthy.
(Float underflow such as `1e-1000`, which CPython rounds to `0.0`, is not
modelled; no literal in this development is in that range.) -/
def numLexTruthy (lex : List Char) : Bool :=
  (lex.takeWhile (fun c => !(c = 'e' || c = 'E'))).any
      (fun c => c.isDigit && c != '0')
    || lex.any (fun c => c = 'N' || c = 'I')

/-- Python truthiness of a decoded JSON value (`if data:`): `None`, `False`,
numeric zero, `""`, `[]` and `{}` are falsy. -/
def Json.truthy : Json → Bool
  | .null => false
  | .bool b => b
  | .num lex => numLexTruthy lex
  | .str s => !s.isEmpty
  | .arr es => !es.isEmpty
  | .obj fs => !fs.isEmpty

/-- JSON insignificant whitespace (RFC 8259: space, tab, LF, CR). -/
def jsonSkipWs (s : List Char) : List Char :=
  s.dropWhile (fun c => c = ' ' || c = '\t' || c = '\n' || c = '\r')

/-- Value of one hexadecimal digit. -/
def hexDigitVal? (c : Char) : Option Nat :=
  if c.isDigit then some (c.toNat - 48)
  else if 'a' ≤ c && c ≤ 'f' then some (c.toNat - 97 + 10)
  else if 'A' ≤ c && c ≤ 'F' then some (c.toNat - 65 + 10)
  else none

/-- Four hexadecimal digits of a `\uXXXX` escape. -/
def parseHex4 : List Char → Option (Nat × List Char)
  | a :: b :: c :: d :: rest =>
    match hexDigitVal? a, hexDigitVal? b, hexDigitVal? c, hexDigitVal? d with
    | some x, some y, some z, some w => some (((x * 16 + y) * 16 + z) * 16 + w, rest)
    | _, _, _, _ => none
  | _ => none

/-- Body of a JSON string, after the opening quote; returns the decoded
characters and the input remaining after the closing quote. Surrogate pairs
in `\uXXXX` escapes are combined; a lone surrogate (which CPython keeps as a
lone surrogate code unit, unrepresentable in `Char`) becomes U+FFFD. -/
def parseJStringBody : Nat → List Char → Option (List Char × List Char)
  | 0, _ => none
  | _, [] => none
  | fuel + 1, c :: rest =>
    if c = '"' then some ([], rest)
    else if c = '\\' then
      match rest with
      | [] => none
      | e :: rest2 =>
        let simpleEsc : Option Char :=
          if e = '"' then some '"'
          else if e = '\\' then some '\\'
          else if e = '/' then some '/'
          else if e = 'b' then some '\x08'
          else if e = 'f' then some '\x0c'
          else if e = 'n' then some '\n'
          else if e = 'r' then some '\r'
          else if e = 't' then some '\t'
          else none
        match simpleEsc with
        | some ch =>
          (fun pr => (ch :: pr.1, pr.2)) <$> parseJStringBody fuel rest2
        | none =>
          if e = 'u' then
            match parseHex4 rest2 with
            | none => none
            | some (n, rest3) =>
              if 0xD800 ≤ n && n ≤ 0xDBFF then
                match rest3 with
                | '\\' :: 'u' :: rest4 =>
                  match parseHex4 rest4 with
                  | none => none
                  | some (m, rest5) =>
                    if 0xDC00 ≤ m && m ≤ 0xDFFF then
                      let cp := 0x10000 + (n - 0xD800) * 0x400 + (m - 0xDC00)
                      (fun pr => (Char.ofNat cp :: pr.1, pr.2)) <$>
                        parseJStringBody fuel rest5
                    else
                      (fun pr => ('�' :: pr.1, pr.2)) <$>
                        parseJStringBody fuel rest3
                | _ =>
                  (fun pr => ('�' :: pr.1, pr.2)) <$>
                    parseJStringBody fuel rest3
              else if 0xDC00 ≤ n && n ≤ 0xDFFF then
                (fun pr => ('�' :: pr.1, pr.2)) <$>
                  parseJStringBody fuel rest3
              else
                (fun pr => (Char.ofNat n :: pr.1, pr.2)) <$>
                  parseJStringBody fuel rest3
          else none
    else if c.toNat < 0x20 then none
    else (fun pr => (c :: pr.1, pr.2)) <$> parseJStringBody fuel rest

/-- A JSON number lexeme (`-?(0|[1-9][0-9]*)(\.[0-9]+)?([eE][+-]?[0-9]+)?`,
as in CPython's `json` scanner); returns the lexeme and the rest. The
fraction and exponent are consumed only when complete, matching the regex. -/
def parseNumber (s : List Char) : Option (List Char × List Char) :=
  let signAndRest : List Char × List Char :=
    match s with
    | '-' :: r => (['-'], r)
    | _ => ([], s)
  let sign := signAndRest.1
  let s1 := signAndRest.2
  let intPart : Option (List Char × List Char) :=
    match s1 with
    | '0' :: r => some (['0'], r)
    | c :: r =>
      if c.isDigit then
        some (c :: r.takeWhile Char.isDigit, r.dropWhile Char.isDigit)
      else none
    | [] => none
  match intPart with
  | none => none
  | some (ip, s2) =>
    let fracAndRest : List Char × List Char :=
      match s2 with
      | '.' :: r =>
        let ds := r.takeWhile Char.isDigit
        if ds.isEmpty then ([], s2)
        else ('.' :: ds, r.dropWhile Char.isDigit)
      | _ => ([], s2)
    let fp := fracAndRest.1
    let s3 := fracAndRest.2
    let expAndRest : List Char × List Char :=
      match s3 with
      | e :: r =>
        if e = 'e' || e = 'E' then
          match r with
          | sgn :: r2 =>
            if sgn = '+' || sgn = '-' then
              let ds := r2.takeWhile Char.isDigit
              if ds.isEmpty then ([], s3)
              else (e :: sgn :: ds, r2.dropWhile Char.isDigit)
            else
              let ds := r.takeWhile Char.isDigit
              if ds.isEmpty then ([], s3)
              else (e :: ds, r.dropWhile Char.isDigit)
          | [] => ([], s3)
        else ([], s3)
      | [] => ([], s3)
    some (sign ++ ip ++ fp ++ expAndRest.1, expAndRest.2)

/-- Dict assignment during object decoding: overwriting an existing key keeps
its original position (CPython dict semantics), a fresh key is appended. -/
def upsertField (fields : List (List Char × Json)) (key : List Char)
    (v : Json) : List (List Char × Json) :=
  if fields.any (fun kv => kv.1 = key) then
    fields.map (fun kv => if kv.1 = key then (key, v) else kv)
  else fields ++ [(key, v)]

mutual

/-- One JSON value, leading whitespace allowed; fuel bounds nesting. -/
def parseValue : Nat → List Char → Option (Json × List Char)
  | 0, _ => none
  | fuel + 1, s =>
    match jsonSkipWs s with
    | 'n' :: 'u' :: 'l' :: 'l' :: rest => some (.null, rest)
    | 't' :: 'r' :: 'u' :: 'e' :: rest => some (.bool true, rest)
    | 'f' :: 'a' :: 'l' :: 's' :: 'e' :: rest => some (.bool false, rest)
    | 'N' :: 'a' :: 'N' :: rest => some (.num ['N', 'a', 'N'], rest)
    | 'I' :: 'n' :: 'f' :: 'i' :: 'n' :: 'i' :: 't' :: 'y' :: rest =>
      some (.num "Infinity".data, rest)
    | '-' :: 'I' :: 'n' :: 'f' :: 'i' :: 'n' :: 'i' :: 't' :: 'y' :: rest =>
      some (.num "-Infinity".data, rest)
    | '"' :: rest =>
      match parseJStringBody (rest.length + 1) rest with
      | some (cs, rest2) => some (.str cs, rest2)
      | none => none
    | '[' :: rest =>
      match jsonSkipWs rest with
      | ']' :: rest2 => some (.arr [], rest2)
      | s2 => parseArrayLoop fuel s2 []
    | '\x7b' :: rest =>
      match jsonSkipWs rest with
      | '\x7d' :: rest2 => some (.obj [], rest2)
      | s2 => parseObjLoop fuel s2 []
    | s' =>
      match parseNumber s' with
      | some (lex, rest) => some (.num lex, rest)
      | none => none

/-- Array elements after `[`: value (`,` value)* `]`. -/
def parseArrayLoop : Nat → List Char → List Json → Option (Json × List Char)
  | 0, _, _ => none
  | fuel + 1, s, acc =>
    match parseValue fuel s with
    | none => none
    | some (v, rest) =>
      match jsonSkipWs rest with
      | ',' :: rest2 => parseArrayLoop fuel rest2 (acc ++ [v])
      | ']' :: rest2 => some (.arr (acc ++ [v]), rest2)
      | _ => none

/-- Object members after the opening brace: string `:` value
(`,` string `:` value)* closing brace. -/
def parseObjLoop : Nat → List Char → List (List Char × Json) →
    Option (Json × List Char)
  | 0, _, _ => none
  | fuel + 1, s, acc =>
    match jsonSkipWs s with
    | '"' :: rest =>
      match parseJStringBody (rest.length + 1) rest with
      | none => none
      | some (key, rest2) =>
        match jsonSkipWs rest2 with
        | ':' :: rest3 =>
          match parseValue fuel rest3 with
          | none => none
          | some (v, rest4) =>
            let acc2 := upsertField acc key v
            match jsonSkipWs rest4 with
            | ',' :: rest5 => parseObjLoop fuel rest5 acc2
            | '\x7d' :: rest5 => some (.obj acc2, rest5)
            | _ => none
        | _ => none
    | _ => none

end

/-- Function `json.loads(s)`: parse one JSON value, then require only whitespace to
remain; `none` models `json.JSONDecodeError`. The fuel `2 * s.length + 8`
dominates the recursion depth (each nesting level consumes at least one
input character and at most two units of fuel). -/
def jsonLoads (s : List Char) : Option Json :=
  match parseValue (2 * s.length + 8) s with
  | some (v, rest) => if jsonSkipWs rest = [] then some v else none
  | none => none

/-! ## SSE stream decoding (`_handle_stream_response`, `stream_chat`) -/

/-- Constant `STREAM_PREFIX = "data: "`. -/
def dataMarker : List Char := "data: ".data

/-- Constant `STREAM_END_MARKER = "[DONE]"`. -/
def streamEndMarker : List Char := "[DONE]".data

/-- Method `OpenAIClient._is_stream_end(data_str)`:
`data_str.strip() == STREAM_END_MARKER`. -/
def isStreamEnd (dataStr : List Char) : Bool :=
  pyStrip dataStr == streamEndMarker

/-- Method `OpenAIClient._parse_stream_data(data_str)`: `json.loads` with
`json.JSONDecodeError` mapped to `None`. -/
def parseStreamData (dataStr : List Char) : Option Json :=
  jsonLoads dataStr

/-- Method `OpenAIClient._handle_stream_response(response)`, with the response body
given as its decoded lines: skip blank lines and lines without the
`"data: "` marker; stop (yielding nothing further) at the first payload whose
stripped text is `"[DONE]"`; otherwise parse the payload and yield it when it
parses to a truthy value (`if data: yield data`). -/
def handleStreamResponse : List (List Char) → List Json
  | [] => []
  | line :: rest =>
    if line.isEmpty then handleStreamResponse rest
    else if !(dataMarker.isPrefixOf line) then handleStreamResponse rest
    else
      let dataStr := line.drop dataMarker.length
      if isStreamEnd dataStr then []
      else
        match parseStreamData dataStr with
        | some d =>
          if d.truthy then d :: handleStreamResponse rest
          else handleStreamResponse rest
        | none => handleStreamResponse rest

/-- Python exceptions that the embedded expressions can raise. -/
inductive PyErr where
  | typeError
  | keyError
  | indexError
  | attributeError
deriving DecidableEq, Repr

instance {ε α : Type} [DecidableEq ε] [DecidableEq α] :
    DecidableEq (Except ε α) := fun a b =>
  match a, b with
  | .ok x, .ok y =>
    if h : x = y then isTrue (by rw [h])
    else isFalse (fun hc => h (Except.ok.inj hc))
  | .error x, .error y =>
    if h : x = y then isTrue (by rw [h])
    else isFalse (fun hc => h (Except.error.inj hc))
  | .ok _, .error _ => isFalse (fun hc => Except.noConfusion hc)
  | .error _, .ok _ => isFalse (fun hc => Except.noConfusion hc)

/-- Equality test between a decoded JSON element and a Python `str` (used by
`in` on a list): only a `str` element can equal a string. -/
def jsonEqStr : Json → List Char → Bool
  | .str s, k => s == k
  | _, _ => false

/-- Python `key in j` for a `str` key: dict key membership, list element
membership, substring test on a `str`; `TypeError` otherwise. -/
def pyIn (key : List Char) : Json → Except PyErr Bool
  | .obj fs => .ok (fs.any (fun kv => kv.1 == key))
  | .arr es => .ok (es.any (fun e => jsonEqStr e key))
  | .str s => .ok (decide (key <:+: s))
  | _ => .error .typeError

/-- Python `j[key]` for a `str` key: dict lookup (`KeyError` when absent);
`TypeError` on lists, strings and scalars. -/
def pySubscriptStr (j : Json) (key : List Char) : Except PyErr Json :=
  match j with
  | .obj fs =>
    match fs.find? (fun kv => kv.1 == key) with
    | some kv => .ok kv.2
    | none => .error .keyError
  | _ => .error .typeError

/-- Python `j[i]` for a nonnegative `int` index: list indexing (`IndexError`
out of range), string indexing (yielding a one-character string), `KeyError`
on dicts decoded from JSON (their keys are strings), `TypeError` otherwise. -/
def pySubscriptNat (j : Json) (i : Nat) : Except PyErr Json :=
  match j with
  | .arr es =>
    match es[i]? with
    | some e => .ok e
    | none => .error .indexError
  | .str s =>
    match s[i]? with
    | some c => .ok (.str [c])
    | none => .error .indexError
  | .obj _ => .error .keyError
  | _ => .error .typeError

/-- Python `j.get(key, default)`: defined on dicts; every other decoded JSON
value lacks a `get` method (`AttributeError`). -/
def pyDictGet (j : Json) (key : List Char) (default : Json) :
    Except PyErr Json :=
  match j with
  | .obj fs =>
    .ok (((fs.find? (fun kv => kv.1 == key)).map Prod.snd).getD default)
  | _ => .error .attributeError

/-- The content expression of `stream_chat`:
`chunk["choices"][0].get("delta", {}).get("content", "")`. -/
def chunkContent (chunk : Json) : Except PyErr Json := do
  let choices ← pySubscriptStr chunk "choices".data
  let first ← pySubscriptNat choices 0
  let delta ← pyDictGet first "delta".data (.obj [])
  pyDictGet delta "content".data (.str [])

/-- The text one loop iteration of `stream_chat` appends to `full_response`:
nothing when `chunk and "choices" in chunk` is falsy or the content is falsy;
the content when it is a truthy string; `TypeError` when a truthy non-string
is concatenated. -/
def perChunkPiece (chunk : Json) : Except PyErr (List Char) :=
  if !chunk.truthy then .ok []
  else
    match pyIn "choices".data chunk with
    | .error e => .error e
    | .ok false => .ok []
    | .ok true =>
      match chunkContent chunk with
      | .error e => .error e
      | .ok content =>
        if content.truthy then
          match content with
          | .str s => .ok s
          | _ => .error .typeError
        else .ok []

/-- The `for chunk in ...` loop of `stream_chat`, returning the final
`full_response`; an exception in any iteration aborts the loop. -/
def accumulate : List Json → Except PyErr (List Char)
  | [] => .ok []
  | c :: rest =>
    match perChunkPiece c with
    | .error e => .error e
    | .ok p =>
      match accumulate rest with
      | .error e => .error e
      | .ok r => .ok (p ++ r)

/-- The content deltas of a chunk sequence, in order (the spec's
`contentDelta` fields); used to compare `full_response` with their
concatenation. -/
def chunkDeltas : List Json → Except PyErr (List (List Char))
  | [] => .ok []
  | c :: rest =>
    match perChunkPiece c with
    | .error e => .error e
    | .ok p =>
      match chunkDeltas rest with
      | .error e => .error e
      | .ok ps => .ok (p :: ps)

/-- Function `stream_chat(client, user_input, model)` with the streamed response body
given as its decoded lines: append the user message, accumulate the streamed
content, and append one assistant message only when `full_response` is
truthy. The second component is the outcome (`full_response`, or the
exception that escaped the loop). -/
def streamChat (st : OpenAIClientState) (userInput : String)
    (lines : List (List Char)) : OpenAIClientState × Except PyErr String :=
  let st1 := addMessage st "user" userInput
  match accumulate (handleStreamResponse lines) with
  | .error e => (st1, .error e)
  | .ok full =>
    if full.isEmpty then (st1, .ok (String.mk full))
    else (addMessage st1 "assistant" (String.mk full), .ok (String.mk full))

/-- First frame of the spec's synthetic round-trip stream. -/
def helloFrameA : List Char :=
  ("data: \x7b\"choices\":[\x7b\"delta\":\x7b\"content\":\"He\"\x7d\x7d]\x7d").data

/-- Second frame of the spec's synthetic round-trip stream. -/
def helloFrameB : List Char :=
  ("data: \x7b\"choices\":[\x7b\"delta\":\x7b\"content\":\"llo\"\x7d\x7d]\x7d").data

/-- The terminating frame `data: [DONE]`. -/
def doneFrame : List Char := ("data: [DONE]").data

/-- The spec's synthetic round-trip stream. -/
def helloLines : List (List Char) := [helloFrameA, helloFrameB, doneFrame]

/-- A syntactically valid frame whose delta carries empty content. -/
def emptyContentFrame : List Char :=
  ("data: \x7b\"choices\":[\x7b\"delta\":\x7b\"content\":\"\"\x7d\x7d]\x7d").data

/-- A zero-content stream: every decoded chunk carries an empty delta. -/
def zeroContentLines : List (List Char) :=
  [emptyContentFrame, emptyContentFrame, doneFrame]

/-- The malformed frame `data: {bad json` from the spec's example. -/
def badFrame : List Char := ("data: \x7bbad json").data

/-- A valid frame carrying content `"ok"`. -/
def okFrame : List Char :=
  ("data: \x7b\"choices\":[\x7b\"delta\":\x7b\"content\":\"ok\"\x7d\x7d]\x7d").data

/-- A stream with one malformed frame between a valid frame and `[DONE]`. -/
def malformedLines : List (List Char) := [okFrame, badFrame, doneFrame]

/-! ## Template rendering (`PromptService._replace_template_variables`) -/

/-- Python `str.replace(pat, rep)`: scan left to right, replacing each
non-overlapping occurrence of `pat` and continuing after the replacement
text. The source only calls it with the nonempty pattern
`"\x7b\x7b" + key + "\x7d\x7d"`; for an empty pattern the input is returned
unchanged (CPython's interleaving behaviour is never exercised). -/
def replaceAllAux (pat rep : List Char) : Nat → List Char → List Char
  | 0, s => s
  | fuel + 1, s =>
    match s with
    | [] => []
    | c :: rest =>
      if pat.isPrefixOf (c :: rest) then
        rep ++ replaceAllAux pat rep fuel ((c :: rest).drop pat.length)
      else
        c :: replaceAllAux pat rep fuel rest

/-- Function `str.replace` proper; each scan step consumes at least one input
character, so fuel `s.length + 1` is never exhausted. -/
def replaceAll (s pat rep : List Char) : List Char :=
  if pat.isEmpty then s else replaceAllAux pat rep (s.length + 1) s

/-- The placeholder `f"\x7b\x7b\x7bkey\x7d\x7d\x7d"[1:-1]`, that is
`"\x7b\x7b" ++ key ++ "\x7d\x7d"`. -/
def placeholderOf (key : List Char) : List Char :=
  '\x7b' :: '\x7b' :: (key ++ ['\x7d', '\x7d'])

/-- The `for key, value in template_vars.items()` loop of
`_replace_template_variables`: dict iteration order is insertion order, so
the dict is embedded as an association list. -/
def replaceTemplateVariables (template : List Char)
    (template_vars : List (List Char × List Char)) : List Char :=
  template_vars.foldl
    (fun result kv => replaceAll result (placeholderOf kv.1) kv.2) template

/-- Method `PromptService._replace_template_variables(template, template_vars)`
including the `template_vars is None` early return. -/
def replaceTemplateVariablesOpt (template : List Char)
    (template_vars : Option (List (List Char × List Char))) : List Char :=
  match template_vars with
  | none => template
  | some vs => replaceTemplateVariables template vs

/-! ## Chat-completion request bodies (claim C7)

`max_tokens := none` means the key is absent from the request body. -/

/-- The request payload fields shared by both adapters. `temperature` is
carried opaquely (no arithmetic is performed on it). -/
structure ChatPayload where
  model : String
  messages : List Message
  temperature : Rat
  max_tokens : Option Int
  stream : Bool
deriving DecidableEq, Repr

/-- Method `OpenAIClient.chat_completion`: the `payload` dict always contains the
`"max_tokens"` key (`"max_tokens": max_tokens`, unconditionally). -/
def openaiChatCompletionPayload (messages : List Message) (model : String)
    (temperature : Rat) (max_tokens : Int) (stream : Bool) : ChatPayload :=
  { model := model
    messages := messages
    temperature := temperature
    max_tokens := some max_tokens
    stream := stream }

/-- Method `ZhipuAiChatClient.chat_completion`: `kwargs` receives `"max_tokens"`
only under `if max_tokens > 0`. -/
def zhipuChatCompletionKwargs (messages : List Message) (model : String)
    (temperature : Rat) (max_tokens : Int) (stream : Bool) : ChatPayload :=
  { model := model
    messages := messages
    temperature := temperature
    max_tokens := if max_tokens > 0 then some max_tokens else none
    stream := stream }

/-! ## Reference semantics of `get_history` (claim C8)

Python message dicts live in a store addressed by allocation index; a
`list[dict]` is a list of addresses. `list.copy()` yields a fresh list
holding the same addresses, which is exactly what
`self.conversation_history.copy()` returns. -/

/-- The store of allocated message dicts; an address is an index. -/
structure Heap where
  store : List Message
deriving DecidableEq, Repr

/-- The client's `conversation_history` as a list of addresses. -/
structure HeapClient where
  history : List Nat
deriving DecidableEq, Repr

/-- Dereference a list of addresses into message values (reading a dict
through any alias). Addresses are always allocated in this development. -/
def viewAddrs (h : Heap) (addrs : List Nat) : List Message :=
  addrs.map (fun a => (h.store[a]?).getD { role := "", content := "" })

/-- Method `get_history()`: `self.conversation_history.copy()` — a fresh list
containing the same dict references. -/
def hGetHistory (c : HeapClient) : List Nat :=
  c.history

/-- Method `add_message`: allocate the new dict and append its address to the
client's own list (a previously returned copy is a different list and is
not extended). -/
def hAddMessage (h : Heap) (c : HeapClient) (role content : String) :
    Heap × HeapClient :=
  ({ store := h.store ++ [{ role := role, content := content }] },
   { history := c.history ++ [h.store.length] })

/-- In-place mutation `msg["content"] = newContent` through any reference to
the dict at address `a`. -/
def hWriteContent (h : Heap) (a : Nat) (newContent : String) : Heap :=
  { store :=
      match h.store[a]? with
      | some m => h.store.set a { m with content := newContent }
      | none => h.store }

/-- Method `set_system_prompt` on the heap model: when the first history entry is a
system message its dict is mutated in place
(`self.conversation_history[0]["content"] = system_prompt`); otherwise a new
dict is allocated and its address inserted at index 0. -/
def hSetSystemPrompt (h : Heap) (c : HeapClient) (p : String) :
    Heap × HeapClient :=
  match c.history with
  | a :: _ =>
    if ((h.store[a]?).getD { role := "", content := "" }).role = "system" then
      (hWriteContent h a p, c)
    else
      ({ store := h.store ++ [{ role := "system", content := p }] },
       { history := h.store.length :: c.history })
  | [] =>
    ({ store := h.store ++ [{ role := "system", content := p }] },
     { history := [h.store.length] })

/-! ## Adapter selection (`ServiceFactory._ensure_service`, claim C9) -/

/-- The chat client constructed by `_ensure_service`. -/
inductive SelectedClient where
  | zhipu (api_key : String)
  | openai (api_key : String) (base_url : String)
deriving DecidableEq, Repr

/-- How `_ensure_service` fails before constructing a client. -/
inductive FactoryError where
  | unboundLocalApiKey
  | systemExit1
deriving DecidableEq, Repr

/-- Python truthiness of `os.getenv(...)`: unset (`None`) and `""` are
falsy. -/
def envTruthy : Option String → Bool
  | none => false
  | some s => !s.isEmpty

/-- The credential-selection block of `ServiceFactory._ensure_service`,
lines 91–112 of `src/notebooks/setup.py`. The local variable `api_key` is
assigned only inside the `ZHIPUAI_API_KEY` branch; the `DEEPSEEK_API_KEY`
branch evaluates `OpenAIClient(api_key=api_key, base_url=base_url)` with
`api_key` still unbound, and the final branch prints an error and calls
`sys.exit(1)`. Returns the constructed client and the chosen model name. -/
def ensureServiceSelect (zhipuaiApiKey deepseekApiKey : Option String) :
    Except FactoryError (SelectedClient × String) :=
  let apiKeyLocal : Option String := none
  if envTruthy zhipuaiApiKey then
    let apiKeyLocal := some (zhipuaiApiKey.getD "")
    match apiKeyLocal with
    | some k => .ok (.zhipu k, "glm-4.5")
    | none => .error .unboundLocalApiKey
  else if envTruthy deepseekApiKey then
    match apiKeyLocal with
    | some k => .ok (.openai k "https://api.deepseek.com", "deepseek-chat")
    | none => .error .unboundLocalApiKey
  else
    .error .systemExit1

/-! ## Helper lemmas -/

theorem handleStreamResponse_cons (line : List Char)
    (rest : List (List Char)) :
    handleStreamResponse (line :: rest) =
      if line.isEmpty then handleStreamResponse rest
      else if !(dataMarker.isPrefixOf line) then handleStreamResponse rest
      else
        let dataStr := line.drop dataMarker.length
        if isStreamEnd dataStr then []
        else
          match parseStreamData dataStr with
          | some d =>
            if d.truthy then d :: handleStreamResponse rest
            else handleStreamResponse rest
          | none => handleStreamResponse rest := rfl

/-- The decoder's output depends on the lines before the terminator only
through what it does with each of them: replacing the tail of the line list
by one with the same decoding leaves the decoding of the whole unchanged. -/
theorem handleStreamResponse_append_congr (L1 L2 : List (List Char))
    (h : handleStreamResponse L1 = handleStreamResponse L2) :
    ∀ pre, handleStreamResponse (pre ++ L1) = handleStreamResponse (pre ++ L2) := by
  intro pre
  induction pre with
  | nil => simpa using h
  | cons line pre ih =>
    rw [List.cons_append, List.cons_append, handleStreamResponse_cons,
      handleStreamResponse_cons]
    cases h1 : line.isEmpty
    · cases h2 : dataMarker.isPrefixOf line
      · simp [h1, h2, ih]
      · cases h3 : isStreamEnd (line.drop dataMarker.length)
        · cases h4 : parseStreamData (line.drop dataMarker.length)
          · simp [h1, h2, h3, h4, ih]
          · simp only [h1, h2, h3, h4]
            cases htr : Json.truthy _ <;> simp [ih]
        · simp [h1, h2, h3]
    · simp [h1, ih]

theorem accumulate_eq_ok_nil (cs : List Json)
    (h : ∀ c ∈ cs, perChunkPiece c = .ok []) :
    accumulate cs = .ok [] := by
  induction cs with
  | nil => rfl
  | cons c rest ih =>
    have hc := h c (List.mem_cons_self c rest)
    have hrest := ih (fun c' hc' => h c' (List.mem_cons_of_mem c hc'))
    simp [accumulate, hc, hrest]

theorem accumulate_eq_join_chunkDeltas (cs : List Json) :
    accumulate cs = Except.map List.flatten (chunkDeltas cs) := by
  induction cs with
  | nil => rfl
  | cons c rest ih =>
    simp only [accumulate, chunkDeltas]
    cases hp : perChunkPiece c
    · rfl
    · rw [ih]
      cases hd : chunkDeltas rest <;> simp [Except.map]

theorem replaceAllAux_no_occurrence (pat rep : List Char) (fuel : Nat) :
    ∀ s, ¬ pat <:+: s → replaceAllAux pat rep fuel s = s := by
  induction fuel with
  | zero => intro s _; rfl
  | succ fuel ih =>
    intro s h
    match s with
    | [] => rfl
    | c :: rest =>
      have hpre : pat.isPrefixOf (c :: rest) = false := by
        cases hb : pat.isPrefixOf (c :: rest)
        · rfl
        · obtain ⟨t, ht⟩ := List.isPrefixOf_iff_prefix.mp hb
          exact absurd ⟨[], t, by simpa using ht⟩ h
      have hrest : ¬ pat <:+: rest := fun hinf => h (List.infix_cons hinf)
      simp [replaceAllAux, hpre, ih rest hrest]

theorem replaceAll_no_occurrence (s pat rep : List Char)
    (h : ¬ pat <:+: s) : replaceAll s pat rep = s := by
  unfold replaceAll
  cases hpe : pat.isEmpty
  · simp only [Bool.false_eq_true, if_false]
    exact replaceAllAux_no_occurrence pat rep (s.length + 1) s h
  · simp

/-- The placeholder of any key is a nonempty string beginning with braces. -/
theorem placeholderOf_ne_nil (key : List Char) : placeholderOf key ≠ [] := by
  simp [placeholderOf]

/-- Rendering is the identity on a string containing no placeholder of any
variable in the mapping. -/
theorem replaceTemplateVariables_of_no_placeholder
    (vars : List (List Char × List Char)) :
    ∀ s, (∀ kv ∈ vars, ¬ placeholderOf kv.1 <:+: s) →
      replaceTemplateVariables s vars = s := by
  induction vars with
  | nil => intro s _; rfl
  | cons kv vars ih =>
    intro s h
    have h0 : ¬ placeholderOf kv.1 <:+: s := h kv (List.mem_cons_self kv vars)
    show replaceTemplateVariables (replaceAll s (placeholderOf kv.1) kv.2) vars = s
    rw [replaceAll_no_occurrence s _ kv.2 h0]
    exact ih s (fun kv' hm => h kv' (List.mem_cons_of_mem kv hm))

theorem addMessages_history (ms : List (String × String)) :
    ∀ st : OpenAIClientState,
      (addMessages st ms).conversation_history =
        st.conversation_history ++
          ms.map (fun rc => { role := rc.1, content := rc.2 }) := by
  induction ms with
  | nil => intro st; simp [addMessages]
  | cons rc ms ih =>
    intro st
    show (addMessages (addMessage st rc.1 rc.2) ms).conversation_history = _
    rw [ih (addMessage st rc.1 rc.2)]
    simp [addMessage]

theorem sysInvariant_append (h : List Message) (ms : List Message)
    (hinv : sysInvariant h) (hms : ∀ m ∈ ms, m.role ≠ "system") :
    sysInvariant (h ++ ms) := by
  constructor
  · rw [List.filter_append]
    have : ms.filter (fun m => m.role = "system") = [] :=
      List.filter_eq_nil_iff.mpr (by simpa using hms)
    rw [this]
    simpa using hinv.1
  · cases h with
    | nil =>
      intro m hm
      exact hms m (List.drop_subset 1 ms hm)
    | cons a h' =>
      intro m hm
      simp only [List.cons_append, List.drop_succ_cons, List.drop_zero] at hm
      rcases List.mem_append.mp hm with hm' | hm'
      · exact hinv.2 m (by simpa using hm')
      · exact hms m hm'

theorem sysInvariant_setSystemPrompt (st : OpenAIClientState) (p : String)
    (hinv : sysInvariant st.conversation_history) :
    sysInvariant (setSystemPrompt st p).conversation_history := by
  unfold setSystemPrompt
  cases hh : st.conversation_history with
  | nil => exact ⟨by simp, by simp⟩
  | cons m rest =>
    have hrest : ∀ m' ∈ rest, m'.role ≠ "system" := by
      intro m' hm'
      exact hinv.2 m' (by rw [hh]; simpa using hm')
    by_cases hr : m.role = "system"
    · simp only [hr, if_true]
      constructor
      · simp only [List.filter_cons]
        have : rest.filter (fun m' => m'.role = "system") = [] :=
          List.filter_eq_nil_iff.mpr (by simpa using hrest)
        simp [hr, this]
      · intro m' hm'
        simp only [List.drop_succ_cons, List.drop_zero] at hm'
        exact hrest m' hm'
    · simp only [hr, if_false]
      constructor
      · simp only [List.filter_cons]
        have : rest.filter (fun m' => m'.role = "system") = [] :=
          List.filter_eq_nil_iff.mpr (by simpa using hrest)
        simp [hr, this]
      · intro m' hm'
        simp only [List.drop_succ_cons, List.drop_zero] at hm'
        rcases List.mem_cons.mp hm' with hm'' | hm''
        · rw [hm'']; exact hr
        · exact hrest m' hm''

/-! ## Claim theorems -/

/-- C1 (amended): for every sequence of `add_message` calls, `get_history`
returns the starting history followed by the appended messages in call
order; the at-most-one-`system`-message-at-index-0 invariant is preserved
whenever no appended message carries role `"system"` (starting from a
history satisfying it), and `set_system_prompt` preserves it
unconditionally. `add_message` performs no system-slot deduplication, so
appending with role `"system"` can break the invariant (see the
counterexample). -/
theorem addMessage_order_and_system_invariant (st : OpenAIClientState)
    (ms : List (String × String)) :
    getHistory (addMessages st ms) =
      st.conversation_history ++
        ms.map (fun rc => { role := rc.1, content := rc.2 })
    ∧ (sysInvariant st.conversation_history →
        (∀ rc ∈ ms, rc.1 ≠ "system") →
        sysInvariant (getHistory (addMessages st ms)))
    ∧ ∀ p, sysInvariant st.conversation_history →
        sysInvariant (setSystemPrompt st p).conversation_history := by
  refine ⟨addMessages_history ms st, ?_,
    fun p h => sysInvariant_setSystemPrompt st p h⟩
  intro hinv hms
  show sysInvariant (addMessages st ms).conversation_history
  rw [addMessages_history ms st]
  apply sysInvariant_append _ _ hinv
  intro m hm
  rcases List.mem_map.mp hm with ⟨rc, hrc, rfl⟩
  exact hms rc hrc

/-- C1 witness: a concrete instantiation of the amended theorem. -/
theorem addMessage_order_and_system_invariant_witness :
    sysInvariant (getHistory (addMessages
      (OpenAIClient.init "key" "https://api.openai.com/v1" (some "be helpful"))
      [("user", "hi"), ("assistant", "hello")])) :=
  (addMessage_order_and_system_invariant
    (OpenAIClient.init "key" "https://api.openai.com/v1" (some "be helpful"))
    [("user", "hi"), ("assistant", "hello")]).2.1 (by decide) (by decide)

/-- C1 counterexample: two `add_message("system", ...)` calls on a fresh
client leave two `system` messages in the history, the second not at
index 0, refuting the claim for sequences that append with role
`"system"`. -/
theorem addMessage_system_counterexample :
    getHistory (addMessages
        (OpenAIClient.init "key" "https://api.openai.com/v1" none)
        [("system", "a"), ("system", "b")])
      = [{ role := "system", content := "a" },
         { role := "system", content := "b" }]
    ∧ ¬ sysInvariant (getHistory (addMessages
        (OpenAIClient.init "key" "https://api.openai.com/v1" none)
        [("system", "a"), ("system", "b")])) :=
  ⟨rfl, by decide⟩

/-- C2: a streamed turn whose decoded chunks all carry empty content deltas
appends no assistant message: the history after the turn is the history
before plus exactly the one user message, and `full_response` is empty. -/
theorem streamChat_zero_content (st : OpenAIClientState) (u : String)
    (lines : List (List Char))
    (h : ∀ c ∈ handleStreamResponse lines, perChunkPiece c = .ok []) :
    (streamChat st u lines).1.conversation_history =
      st.conversation_history ++ [{ role := "user", content := u }]
    ∧ (streamChat st u lines).2 = .ok "" := by
  have hacc := accumulate_eq_ok_nil _ h
  constructor
  · simp [streamChat, hacc, addMessage]
  · simp [streamChat, hacc]

/-- C2 witness: a concrete zero-content stream. -/
theorem streamChat_zero_content_witness :
    (streamChat (OpenAIClient.init "k" "https://api.deepseek.com" none)
        "question" zeroContentLines).1.conversation_history
      = [{ role := "user", content := "question" }] := by
  have h : ∀ c ∈ handleStreamResponse zeroContentLines,
      perChunkPiece c = .ok [] := by decide
  simpa using (streamChat_zero_content
    (OpenAIClient.init "k" "https://api.deepseek.com" none)
    "question" zeroContentLines h).1

/-- C5 (amended): `clear_history(False)` empties the history for every
client state; when the stored `system_prompt` is a nonempty string `p` and
the history is `[system(p), user, assistant]`, `clear_history(True)`
retains exactly the system message; and when the stored `system_prompt` is
`None` or empty, `clear_history(True)` also yields `[]`, whatever the
history holds — retention is decided by the stored attribute, not the
history contents (see the counterexample). -/
theorem clearHistory_keep_system (st : OpenAIClientState) (p u a : String) :
    (clearHistory st false).conversation_history = []
    ∧ (p ≠ "" → st.system_prompt = some p →
        st.conversation_history =
          [{ role := "system", content := p }, { role := "user", content := u },
           { role := "assistant", content := a }] →
        (clearHistory st true).conversation_history =
          [{ role := "system", content := p }])
    ∧ ((st.system_prompt = none ∨ st.system_prompt = some "") →
        (clearHistory st true).conversation_history = []) := by
  refine ⟨by simp [clearHistory], ?_, ?_⟩
  · intro hp hsys _hh
    have hpe : p.isEmpty = false := by
      cases hb : p.isEmpty
      · rfl
      · exact absurd ((String.isEmpty_iff p).mp hb) hp
    simp [clearHistory, hsys, truthyOptStr, hpe]
  · intro h
    have htr : truthyOptStr st.system_prompt = false := by
      rcases h with h | h <;> rw [h] <;> rfl
    simp [clearHistory, htr]

/-- C5 witness: the retention conjunct at a client in the standard state,
and the falsy-attribute conjunct at a client whose stored prompt is
`None` but whose history contains a system message. -/
theorem clearHistory_keep_system_witness :
    (clearHistory (addMessages
        (OpenAIClient.init "k" "https://api.openai.com/v1" (some "sp"))
        [("user", "u1"), ("assistant", "a1")]) true).conversation_history
      = [{ role := "system", content := "sp" }]
    ∧ (clearHistory (addMessages
        (OpenAIClient.init "k" "https://api.openai.com/v1" none)
        [("system", "s"), ("user", "u1")]) true).conversation_history = [] :=
  ⟨(clearHistory_keep_system (addMessages
      (OpenAIClient.init "k" "https://api.openai.com/v1" (some "sp"))
      [("user", "u1"), ("assistant", "a1")]) "sp" "u1" "a1").2.1
      (by decide) (by rfl) (by rfl),
   (clearHistory_keep_system (addMessages
      (OpenAIClient.init "k" "https://api.openai.com/v1" none)
      [("system", "s"), ("user", "u1")]) "" "" "").2.2 (Or.inl rfl)⟩

/-- C5 counterexample: a history equal to `[system, user, assistant]` built
purely with `add_message` (stored `system_prompt` still `None`);
`clear_history(True)` yields `[]`, not `[system]`. -/
theorem clearHistory_keep_system_counterexample :
    (addMessages (OpenAIClient.init "k" "https://api.openai.com/v1" none)
        [("system", "s"), ("user", "u"), ("assistant", "a")]).conversation_history
      = [{ role := "system", content := "s" }, { role := "user", content := "u" },
         { role := "assistant", content := "a" }]
    ∧ (clearHistory (addMessages
        (OpenAIClient.init "k" "https://api.openai.com/v1" none)
        [("system", "s"), ("user", "u"), ("assistant", "a")])
        true).conversation_history = []
    ∧ (clearHistory (addMessages
        (OpenAIClient.init "k" "https://api.openai.com/v1" none)
        [("system", "s"), ("user", "u"), ("assistant", "a")])
        true).conversation_history
      ≠ [{ role := "system", content := "s" }] :=
  ⟨rfl, rfl, by decide⟩

/-- C10: constructing an `OpenAIClient` with an empty (or absent) system
prompt adds no system message, and for any client whose stored
`system_prompt` is `None` or `""`, `clear_history(True)` empties the
history entirely and coincides with `clear_history(False)`. -/
theorem emptySystemPrompt_behaviour (key url : String)
    (st : OpenAIClientState)
    (h : st.system_prompt = none ∨ st.system_prompt = some "") :
    (OpenAIClient.init key url none).conversation_history = []
    ∧ (OpenAIClient.init key url (some "")).conversation_history = []
    ∧ (clearHistory st true).conversation_history = []
    ∧ clearHistory st true = clearHistory st false := by
  have htr : truthyOptStr st.system_prompt = false := by
    rcases h with h | h <;> rw [h] <;> rfl
  refine ⟨rfl, rfl, ?_, ?_⟩
  · simp [clearHistory, htr]
  · simp [clearHistory, htr]

/-- C10 witness: a concrete client constructed without a system prompt. -/
theorem emptySystemPrompt_behaviour_witness :
    (clearHistory (OpenAIClient.init "k" "https://api.openai.com/v1" none)
        true).conversation_history = [] :=
  (emptySystemPrompt_behaviour "k" "https://api.openai.com/v1"
    (OpenAIClient.init "k" "https://api.openai.com/v1" none)
    (Or.inl rfl)).2.2.1

/-- C3: the decoder stops, without error, at the first line whose payload
after the `"data: "` marker strips to `"[DONE]"` (the lines after it are
never consulted); `full_response` is the concatenation, in order, of the
content deltas of all yielded chunks; and the two-frame synthetic stream
`He`/`llo`/`[DONE]` yields exactly two chunks whose deltas are `"He"` and
`"llo"` and whose concatenation `"Hello"` becomes the assistant message. -/
theorem streamDecode_done_order_concat :
    (∀ pre post d, dataMarker.isPrefixOf d = true →
        isStreamEnd (d.drop dataMarker.length) = true →
        handleStreamResponse (pre ++ d :: post) =
          handleStreamResponse (pre ++ [d]))
    ∧ (∀ cs, accumulate cs = Except.map List.flatten (chunkDeltas cs))
    ∧ (handleStreamResponse helloLines).length = 2
    ∧ chunkDeltas (handleStreamResponse helloLines) =
        .ok ["He".data, "llo".data]
    ∧ (streamChat (OpenAIClient.init "k" "https://api.deepseek.com" none)
          "hi" helloLines).1.conversation_history
        = [{ role := "user", content := "hi" },
           { role := "assistant", content := "Hello" }] := by
  refine ⟨?_, accumulate_eq_join_chunkDeltas, rfl, rfl, rfl⟩
  intro pre post d hpre hend
  apply handleStreamResponse_append_congr
  have hne : d.isEmpty = false := by
    cases d
    · exact absurd hpre (by decide)
    · rfl
  rw [handleStreamResponse_cons, handleStreamResponse_cons]
  simp [hne, hpre, hend]

/-- C3 witness: the stop-at-first-`[DONE]` conjunct at a concrete stream. -/
theorem streamDecode_done_witness :
    handleStreamResponse (["ignored".data] ++ doneFrame :: ["data: later".data])
      = handleStreamResponse (["ignored".data] ++ [doneFrame]) :=
  streamDecode_done_order_concat.1 ["ignored".data] ["data: later".data]
    doneFrame (by decide) (by decide)

/-- C4: a `data: ` line whose payload is not valid JSON is skipped — the
decoding of the stream with the malformed line equals the decoding without
it — and the concrete stream `ok`-frame / malformed frame / `[DONE]` yields
exactly one chunk with content `"ok"`. -/
theorem malformedFrame_skipped :
    (∀ pre post bad, dataMarker.isPrefixOf bad = true →
        isStreamEnd (bad.drop dataMarker.length) = false →
        parseStreamData (bad.drop dataMarker.length) = none →
        handleStreamResponse (pre ++ bad :: post) =
          handleStreamResponse (pre ++ post))
    ∧ (handleStreamResponse malformedLines).length = 1
    ∧ chunkDeltas (handleStreamResponse malformedLines) = .ok ["ok".data]
    ∧ parseStreamData (badFrame.drop dataMarker.length) = none := by
  refine ⟨?_, rfl, rfl, rfl⟩
  intro pre post bad hpre hend hparse
  apply handleStreamResponse_append_congr
  have hne : bad.isEmpty = false := by
    cases bad
    · exact absurd hpre (by decide)
    · rfl
  rw [handleStreamResponse_cons]
  simp [hne, hpre, hend, hparse]

/-- C4 witness: the skip conjunct at the spec's concrete malformed frame. -/
theorem malformedFrame_skipped_witness :
    handleStreamResponse ([okFrame] ++ badFrame :: [doneFrame])
      = handleStreamResponse ([okFrame] ++ [doneFrame]) :=
  malformedFrame_skipped.1 [okFrame] [doneFrame] badFrame
    (by decide) (by decide) rfl

/-- C6: rendering replaces every placeholder occurrence of each mapped key
(concrete conjunct: both occurrences of a key are replaced and the unmatched
placeholder is left verbatim); a template containing no placeholder of any
mapped key renders to itself; and rendering is idempotent whenever no
placeholder of a mapped key survives in (or is re-introduced into) the
rendered output. -/
theorem render_replace_and_idempotent (t : List Char)
    (vars : List (List Char × List Char))
    (h : ∀ kv ∈ vars, ¬ placeholderOf kv.1 <:+: replaceTemplateVariables t vars) :
    replaceTemplateVariables (replaceTemplateVariables t vars) vars
        = replaceTemplateVariables t vars
    ∧ (∀ s, (∀ kv ∈ vars, ¬ placeholderOf kv.1 <:+: s) →
        replaceTemplateVariables s vars = s)
    ∧ replaceTemplateVariables
        "Hi \x7b\x7bto\x7d\x7d and \x7b\x7bto\x7d\x7d, \x7b\x7bmiss\x7d\x7d".data
        [("to".data, "Bob".data)]
      = "Hi Bob and Bob, \x7b\x7bmiss\x7d\x7d".data :=
  ⟨replaceTemplateVariables_of_no_placeholder vars _ h,
   fun s hs => replaceTemplateVariables_of_no_placeholder vars s hs,
   rfl⟩

/-- C6 witness: idempotence at a concrete template and variable mapping. -/
theorem render_replace_and_idempotent_witness :
    replaceTemplateVariables (replaceTemplateVariables
        "Translate to \x7b\x7bto\x7d\x7d: \x7b\x7bother\x7d\x7d".data
        [("to".data, "English".data)])
        [("to".data, "English".data)]
      = replaceTemplateVariables
          "Translate to \x7b\x7bto\x7d\x7d: \x7b\x7bother\x7d\x7d".data
          [("to".data, "English".data)] :=
  (render_replace_and_idempotent
    "Translate to \x7b\x7bto\x7d\x7d: \x7b\x7bother\x7d\x7d".data
    [("to".data, "English".data)] (by decide)).1

/-- C7 (amended): the ZhipuAI adapter includes `max_tokens` in the request
keyword arguments exactly when `maxTokens > 0` and omits it when
`maxTokens ≤ 0`; the `OpenAIClient` REST adapter, by contrast, always
includes `max_tokens` in its payload, even when it is ≤ 0 (see the
counterexample). -/
theorem maxTokens_omission (messages : List Message) (model : String)
    (temperature : Rat) (mt : Int) (stream : Bool) :
    (mt ≤ 0 →
      (zhipuChatCompletionKwargs messages model temperature mt stream).max_tokens
        = none)
    ∧ (0 < mt →
      (zhipuChatCompletionKwargs messages model temperature mt stream).max_tokens
        = some mt)
    ∧ (openaiChatCompletionPayload messages model temperature mt stream).max_tokens
        = some mt := by
  refine ⟨?_, ?_, rfl⟩
  · intro h
    simp [zhipuChatCompletionKwargs, not_lt.mpr h]
  · intro h
    simp [zhipuChatCompletionKwargs, h]

/-- C7 witness: the omission and inclusion conjuncts at concrete budgets. -/
theorem maxTokens_omission_witness :
    (zhipuChatCompletionKwargs [] "glm-4" (7 / 10 : Rat) 0 false).max_tokens = none
    ∧ (zhipuChatCompletionKwargs [] "glm-4" (7 / 10 : Rat) 50 false).max_tokens
        = some 50 :=
  ⟨(maxTokens_omission [] "glm-4" (7 / 10 : Rat) 0 false).1 (by decide),
   (maxTokens_omission [] "glm-4" (7 / 10 : Rat) 50 false).2.1 (by decide)⟩

/-- C7 counterexample: with `maxTokens = 0` the `OpenAIClient` payload still
contains the `max_tokens` key, refuting omission for that adapter. -/
theorem maxTokens_openai_counterexample :
    (openaiChatCompletionPayload [] "gpt-3.5-turbo" (7 / 10 : Rat) 0
        false).max_tokens = some 0
    ∧ (openaiChatCompletionPayload [] "gpt-3.5-turbo" (7 / 10 : Rat) 0
        false).max_tokens ≠ none :=
  ⟨rfl, by simp [openaiChatCompletionPayload]⟩

/-- C8 (amended): `get_history` returns a shallow copy — a fresh list
holding the same message references, so an internal `add_message` is not
observable through a previously returned copy; but the message dicts
themselves are shared, so in-place mutation through either list is visible
through both (see the counterexample). -/
theorem getHistory_shallow_copy (heap : Heap) (c : HeapClient)
    (role content : String)
    (hvalid : ∀ adr ∈ c.history, adr < heap.store.length) :
    hGetHistory c = c.history
    ∧ viewAddrs (hAddMessage heap c role content).1 (hGetHistory c)
        = viewAddrs heap (hGetHistory c) := by
  refine ⟨rfl, ?_⟩
  unfold viewAddrs hAddMessage hGetHistory
  apply List.map_congr_left
  intro a ha
  rw [List.getElem?_append_left (hvalid a ha)]

/-- C8 witness: an internal append is invisible through an earlier copy. -/
theorem getHistory_shallow_copy_witness :
    viewAddrs (hAddMessage ⟨[{ role := "system", content := "s" }]⟩ ⟨[0]⟩
        "user" "hi").1 (hGetHistory ⟨[0]⟩)
      = viewAddrs ⟨[{ role := "system", content := "s" }]⟩ (hGetHistory ⟨[0]⟩) :=
  (getHistory_shallow_copy ⟨[{ role := "system", content := "s" }]⟩ ⟨[0]⟩
    "user" "hi" (by decide)).2

/-- C8 counterexample: the copy is shallow. Mutating the content of the
message reached through the returned copy changes what the internal history
shows, and `set_system_prompt`'s in-place update is observable through a
previously returned copy. -/
theorem getHistory_shallow_copy_counterexample :
    viewAddrs (hWriteContent
        ⟨[{ role := "system", content := "s" }, { role := "user", content := "u" }]⟩
        ((hGetHistory ⟨[0, 1]⟩).headD 0) "changed")
        (HeapClient.mk [0, 1]).history
      ≠ viewAddrs
        ⟨[{ role := "system", content := "s" }, { role := "user", content := "u" }]⟩
        (HeapClient.mk [0, 1]).history
    ∧ viewAddrs (hSetSystemPrompt
        ⟨[{ role := "system", content := "s" }, { role := "user", content := "u" }]⟩
        ⟨[0, 1]⟩ "new prompt").1 (hGetHistory ⟨[0, 1]⟩)
      ≠ viewAddrs
        ⟨[{ role := "system", content := "s" }, { role := "user", content := "u" }]⟩
        (hGetHistory ⟨[0, 1]⟩) :=
  ⟨by decide, by decide⟩

/-- C9: `_ensure_service` checks `ZHIPUAI_API_KEY` first and constructs the
ZhipuAI client with that key; with it absent and `DEEPSEEK_API_KEY` set, the
branch that should construct the `OpenAIClient` with the DeepSeek key
evaluates the never-assigned local `api_key` and raises `UnboundLocalError`
instead; with neither set it exits. -/
theorem ensureService_selection :
    ensureServiceSelect (some "zhipu-key") (some "deepseek-key")
      = .ok (.zhipu "zhipu-key", "glm-4.5")
    ∧ ensureServiceSelect none (some "deepseek-key")
      = .error .unboundLocalApiKey
    ∧ ensureServiceSelect (some "") (some "deepseek-key")
      = .error .unboundLocalApiKey
    ∧ ensureServiceSelect none none = .error .systemExit1 :=
  ⟨rfl, rfl, rfl, rfl⟩
